import Mathlib

/-!
Verification of the trytond-sale-channel module (product.py, party.py,
carrier.py) against its natural-language specification.

The Python source is shallowly embedded: Tryton browse records become Lean
structures (a Many2One field holds the referenced record, or its integer id
when only the foreign-key column matters), Python dicts become association
lists, the ambient transaction context becomes an explicit `World` value
threaded through the availability computation, and a raised exception becomes
`Except.error` carrying the message string.  Product quantities are floats in
the source that are only ever compared with `> 0`, so they are modelled as
rationals.  Where the behaviour under scrutiny is enforced by the host
framework rather than by this module (SQL uniqueness constraints, required
fields, ModelSQL.write), the enforcing operation is modelled from the spec's
description and its doc comment says so.
-/

set_option linter.unusedVariables false

namespace SaleChannel

/-- A sale.channel record, as seen from this module: its database id, its
`source` type tag and the id of its configured warehouse
(`channel.warehouse.id` in the source). -/
structure Channel where
  id : Nat
  source : String
  warehouse : Nat
deriving DecidableEq

/-- The `state` selection of product.product.channel_listing:
`[('active', 'Active'), ('disabled', 'Disabled')]` (src/product.py). -/
inductive ListingState where
  | active
  | disabled
deriving DecidableEq

/-- The `availability_type_used` selection values
(`bucket`, `quantity`, `infinite`) of src/product.py. -/
inductive AvailType where
  | bucket
  | quantity
  | infinite
deriving DecidableEq

/-- The `availability_used` selection values (`in_stock`, `out_of_stock`)
of src/product.py. -/
inductive AvailValue where
  | in_stock
  | out_of_stock
deriving DecidableEq

/-- A product.product.channel_listing row (ProductSaleChannelListing in
src/product.py): channel, optional product (the not-null constraint is
removed in `__register__`), external identifier and lifecycle state. -/
structure Listing where
  id : Nat
  channel : Channel
  product : Option Nat
  product_identifier : String
  state : ListingState
deriving DecidableEq

/-- A product.product record with the fields this module reads:
`is_fresh_import`, the product code, and the on-hand `quantity`, which in
Tryton is a function field computed from the `locations` list in the
transaction context; it is modelled as a function of that context. -/
structure ProductRec where
  is_fresh_import : Bool
  code : String
  quantityIn : List Nat → ℚ

/-- The ambient state `get_availability` runs in: the current `locations`
context of the transaction and the product table. -/
structure World where
  context : List Nat
  products : Nat → ProductRec

/-- The dictionary returned by `get_availability`:
`{'type': ..., 'value': ..., 'quantity': ...}` (src/product.py). -/
structure Availability where
  type : AvailType
  value : Option AvailValue
  quantity : Option ℚ
deriving DecidableEq

/-- ProductSaleChannelListing.get_availability_context (src/product.py):
the locations context is the channel's warehouse. -/
def get_availability_context (l : Listing) : List Nat :=
  [l.channel.warehouse]

/-- Transaction().set_context used as a context manager: save the current
context, run the body with the new one, restore the saved context. -/
def withContext {α : Type} (ctx : List Nat) (f : World → α × World) (w : World) :
    α × World :=
  let saved := w.context
  let r := f { w with context := ctx }
  (r.1, { r.2 with context := saved })

/-- ProductSaleChannelListing.get_availability (src/product.py): inside the
warehouse-scoped context, start from
`{'type': 'bucket', 'value': None, 'quantity': None}`; if a product is
linked, re-browse it in the scoped context, set `quantity` to its on-hand
quantity and classify `value` by comparing that quantity with 0. -/
def get_availability (l : Listing) (w : World) : Availability × World :=
  withContext (get_availability_context l) (fun w1 =>
    match l.product with
    | none => ({ type := AvailType.bucket, value := none, quantity := none }, w1)
    | some pid =>
        let q := ((w1.products pid).quantityIn w1.context)
        ({ type := AvailType.bucket,
           value := if q > 0 then some AvailValue.in_stock
                    else some AvailValue.out_of_stock,
           quantity := some q }, w1)) w

/-- A value stored in the dictionaries built by `get_availability_fields`:
a quantity, an availability bucket value, or an availability type. -/
inductive FieldVal where
  | q (v : ℚ)
  | avail (v : AvailValue)
  | atype (v : AvailType)
deriving DecidableEq

/-- An inner Python dict of `get_availability_fields`, keyed by listing id;
a stored `None` is `some none`, an absent key is `none` on lookup. -/
abbrev Inner := List (Nat × Option FieldVal)

/-- The outer Python defaultdict of `get_availability_fields`, keyed by
field name. -/
abbrev Outer := List (String × Inner)

/-- Lookup in an association list modelling a Python dict. -/
def lookupk {α β : Type} [DecidableEq α] : List (α × β) → α → Option β
  | [], _ => none
  | (k', v) :: rest, k => if k' = k then some v else lookupk rest k

/-- Assignment `m[k] = v` on a Python dict: overwrite the existing binding
or append a new one. -/
def setk {α β : Type} [DecidableEq α] : List (α × β) → α → β → List (α × β)
  | [], k, v => [(k, v)]
  | (k', v') :: rest, k, v =>
      if k' = k then (k, v) :: rest else (k', v') :: setk rest k v

/-- Item access `values[n]` on the defaultdict: if the key is absent it is
inserted with the default value `d` (here `dict.fromkeys(listing_ids, None)`). -/
def touch (d : Inner) (m : Outer) (n : String) : Outer :=
  match lookupk m n with
  | some _ => m
  | none => m ++ [(n, d)]

/-- In-place rewrite of the inner dict bound to key `n` of the outer dict
(dict keys are unique, so at most one binding is rewritten). -/
def updIn : Outer → String → (Inner → Inner) → Outer
  | [], _, _ => []
  | (k, inner) :: rest, n, f =>
      if k = n then (k, f inner) :: updIn rest n f
      else (k, inner) :: updIn rest n f

/-- Assignment `values[n][i] = v` on the defaultdict: item access on the
outer dict (inserting the default when absent) followed by assignment on the
inner dict it holds. -/
def setOut (d : Inner) (m : Outer) (n : String) (i : Nat) (v : Option FieldVal) :
    Outer :=
  updIn (touch d m n) n (fun inner => setk inner i v)

/-- The default inner dict `dict.fromkeys(listing_ids, None)`. -/
def availability_defaults (listing_ids : List Nat) : Inner :=
  listing_ids.map (fun i => (i, none))

/-- One iteration of the second loop of `get_availability_fields`
(src/product.py): a listing with a product writes its availability type,
value and quantity into the dicts; a listing without a product is skipped. -/
def availability_step (w : World) (d : Inner) (m : Outer) (l : Listing) : Outer :=
  match l.product with
  | none => m
  | some _ =>
      let a := (get_availability l w).1
      setOut d
        (setOut d
          (setOut d m "availability_type_used" l.id (some (FieldVal.atype a.type)))
          "availability_used" l.id (a.value.map FieldVal.avail))
        "quantity" l.id (a.quantity.map FieldVal.q)

/-- ProductSaleChannelListing.get_availability_fields (src/product.py):
build a defaultdict whose default is `dict.fromkeys(listing_ids, None)`,
touch every requested name so all requested fields have values even if the
product is absent, then fill in the three availability fields for every
listing that has a product. -/
def get_availability_fields (listings : List Listing) (names : List String)
    (w : World) : Outer :=
  let listing_ids := listings.map Listing.id
  let d := availability_defaults listing_ids
  let m0 := names.foldl (fun m n => touch d m n) []
  listings.foldl (availability_step w d) m0

/-- Example channel used by the batch-availability example of the spec. -/
def exChan : Channel := { id := 3, source := "shop", warehouse := 4 }

/-- Example listing L1 of the spec: it has a product whose on-hand quantity
is 5. -/
def exL1 : Listing :=
  { id := 1, channel := exChan, product := some 10,
    product_identifier := "A", state := ListingState.active }

/-- Example listing L2 of the spec: it has no product. -/
def exL2 : Listing :=
  { id := 2, channel := exChan, product := none,
    product_identifier := "B", state := ListingState.disabled }

/-- Example world for the batch-availability example: product 10 has
on-hand quantity 5 everywhere. -/
def exW : World :=
  { context := [],
    products := fun _ => { is_fresh_import := false, code := "P", quantityIn := fun _ => 5 } }

/-- Invariant of an inner dict of `get_availability_fields`: every listing
of the batch has an entry, and a listing without a product still maps to
the null default. -/
def InnerInv (listings : List Listing) (inner : Inner) : Prop :=
  ∀ l ∈ listings, ∃ v, lookupk inner l.id = some v ∧ (l.product = none → v = none)

/-- Invariant of the outer dict of `get_availability_fields`: every bound
inner dict satisfies `InnerInv`. -/
def OuterInv (listings : List Listing) (m : Outer) : Prop :=
  ∀ (k : String) (inner : Inner), lookupk m k = some inner → InnerInv listings inner

/-- Product.create_from (src/product.py): the base implementation always
raises, naming the channel's source in the message. -/
def Product.create_from {α : Type} (channel : Channel) (product_data : α) :
    Except String Unit :=
  Except.error
    ("create_from is not implemented in product for " ++ channel.source ++ " channels")

/-- ProductSaleChannelListing.create_from (src/product.py): the base
implementation always raises, naming the channel's source in the message. -/
def ProductSaleChannelListing.create_from {α : Type} (channel : Channel)
    (product_data : α) : Except String Unit :=
  Except.error
    ("create_from is not implemented in channel listing for " ++ channel.source
      ++ " channels")

/-- ProductSaleChannelListing.export_inventory (src/product.py): the base
implementation always raises, naming the channel's source in the message. -/
def export_inventory (l : Listing) : Except String Unit :=
  Except.error
    ("Export inventory is not implemented for " ++ l.channel.source ++ " channels")

/-- ProductSaleChannelListing.export_bulk_inventory (src/product.py):
`for listing in listings: listing.export_inventory()`.  The dynamically
dispatched single-item export is a parameter `exp` taking and returning the
external side-effect state and possibly a raised error; a raised error
aborts the loop and propagates, and the state reached so far is kept. -/
def export_bulk_inventory {σ ε : Type} (exp : Listing → σ → σ × Option ε) :
    List Listing → σ → σ × Option ε
  | [], s => (s, none)
  | l :: ls, s =>
      match exp l s with
      | (s', none) => export_bulk_inventory exp ls s'
      | (s', some e) => (s', some e)

/-- Instrumentation of a single-item export that also records, in input
order, each listing it is invoked on. -/
def traceExp {σ ε : Type} (exp : Listing → σ → σ × Option ε) (l : Listing) :
    σ × List Listing → (σ × List Listing) × Option ε :=
  fun p => (((exp l p.1).1, p.2 ++ [l]), (exp l p.1).2)

/-- Concrete listing used by the bulk-export witness. -/
def wlA : Listing :=
  { id := 1, channel := exChan, product := some 10,
    product_identifier := "WA", state := ListingState.active }

/-- Concrete listing used by the bulk-export witness; the witness export
fails on it. -/
def wlB : Listing :=
  { id := 2, channel := exChan, product := some 11,
    product_identifier := "WB", state := ListingState.active }

/-- Concrete listing used by the bulk-export witness; it comes after the
failing one. -/
def wlC : Listing :=
  { id := 3, channel := exChan, product := some 12,
    product_identifier := "WC", state := ListingState.active }

/-- Concrete single-item export for the bulk-export witness: it counts its
invocations in the state and raises on the listing with id 2. -/
def wexp : Listing → Nat → Nat × Option String :=
  fun l s => (s + 1, if l.id = 2 then some "boom" else none)

/-- A product.template.channel_listing row (TemplateSaleChannelListing in
src/product.py), with the channel and template foreign keys as ids. -/
structure TemplateListingRow where
  channel : Nat
  template : Nat
  template_identifier : String
deriving DecidableEq

/-- A party.party.channel_listing row (PartySaleChannelListing in
src/party.py), with the channel and party foreign keys as ids. -/
structure PartyListingRow where
  channel : Nat
  party : Nat
  contact_identifier : String
deriving DecidableEq

/-- The column tuple of the `channel_product_identifier_uniq` constraint
`UNIQUE(channel, product_identifier)` of src/product.py. -/
def product_listing_key (l : Listing) : Nat × String :=
  (l.channel.id, l.product_identifier)

/-- The column tuple of the `channel_template_unique` constraint
`UNIQUE(channel, template_identifier, template)` of src/product.py. -/
def template_listing_key (r : TemplateListingRow) : Nat × String × Nat :=
  (r.channel, r.template_identifier, r.template)

/-- The column tuple of the `channel_party_unique` constraint
`Unique(table, table.channel, table.contact_identifier, table.party)` of
src/party.py. -/
def party_listing_key (r : PartyListingRow) : Nat × String × Nat :=
  (r.channel, r.contact_identifier, r.party)

/-- Modelled from the spec: the host framework turns each declared
`_sql_constraints` entry into a database UNIQUE constraint; an insert whose
key tuple collides with a stored row fails with the declared constraint
message and leaves the table unchanged, otherwise the row is appended. -/
def insertUnique {ρ κ : Type} [DecidableEq κ] (key : ρ → κ) (msg : String)
    (table : List ρ) (r : ρ) : Except String (List ρ) :=
  if table.any (fun r' => decide (key r' = key r)) then Except.error msg
  else Except.ok (table ++ [r])

/-- The product.listing.add.start view record (src/product.py): the product
being listed and the selected channel. -/
structure AddProductListingStart where
  product : Option Nat
  channel : Channel
deriving DecidableEq

/-- The product.listing.add wizard (src/product.py) with its `start` view
record. -/
structure AddProductListing where
  start : AddProductListingStart
deriving DecidableEq

/-- AddProductListing.transition_next (src/product.py):
`return 'start_%s' % self.start.channel.source`. -/
def AddProductListing.transition_next (wiz : AddProductListing) : String :=
  "start_" ++ wiz.start.channel.source

/-- The state names registered on the product.listing.add wizard in
src/product.py: the `start` StateView, the `next` StateTransition, and the
implicit `end` state every Tryton wizard has. -/
def AddProductListing.state_names : List String :=
  ["start", "next", "end"]

/-- Modelled from the spec: the wizard engine resolves the returned state
name against the registered states; an unregistered name resolves to no
state. -/
def resolve_state (registered : List String) (n : String) : Option String :=
  if n ∈ registered then some n else none

/-- The `required` condition declared on the `product` field of
product.product.channel_listing (src/product.py):
`Eval('state') == 'active'`. -/
def product_required (l : Listing) : Bool :=
  decide (l.state = ListingState.active)

/-- Modelled from the spec: the host framework rejects saving a record whose
required field is empty; for the listing's `product` field this checks the
declared required condition against presence of the product reference. -/
def product_reference_ok (l : Listing) : Bool :=
  !(product_required l && l.product.isNone)

/-- A values dict passed to Product.write, restricted to the fields the
model carries; an absent key is `none`. -/
structure WriteValues where
  is_fresh_import : Option Bool
  code : Option String
deriving DecidableEq

/-- Application of a values dict to one record: every field present in the
dict is overwritten. -/
def apply_values (row : ProductRec) (v : WriteValues) : ProductRec :=
  { row with
    is_fresh_import := v.is_fresh_import.getD row.is_fresh_import,
    code := v.code.getD row.code }

/-- Modelled from the spec: the framework's ModelSQL.write applies each
(records, values) pair in order, setting the listed fields on every listed
record. -/
def super_write (db : Nat → ProductRec)
    (pairs : List (List Nat × WriteValues)) : Nat → ProductRec :=
  pairs.foldl
    (fun db p => fun pid => if pid ∈ p.1 then apply_values (db pid) p.2 else db pid)
    db

/-- The loop at the top of Product.write (src/product.py): for each listed
product that is a fresh import, set `is_fresh_import = False` in the shared
values dict. -/
def write_fresh_scan (db : Nat → ProductRec) (products : List Nat)
    (values : WriteValues) : WriteValues :=
  products.foldl
    (fun v pid =>
      if (db pid).is_fresh_import then { v with is_fresh_import := some false }
      else v)
    values

/-- Product.write (src/product.py): if any product in the list is a fresh
import, inject `is_fresh_import = False` into the shared values dict, then
delegate to the framework write with the (possibly mutated) values and the
remaining positional (records, values) pairs. -/
def Product.write (db : Nat → ProductRec) (products : List Nat)
    (values : WriteValues) (args : List (List Nat × WriteValues)) :
    Nat → ProductRec :=
  super_write db ((products, write_fresh_scan db products values) :: args)

/-- AddProductListingStart.add_source (src/product.py): append the source to
the channel domain leaf only when it is not already present. -/
def add_source (source_leaf : List String) (source : String) : List String :=
  if source ∈ source_leaf then source_leaf else source_leaf ++ [source]

/-- C1: `get_availability` always reports type `bucket`; with no linked
product both `value` and `quantity` are null; with a linked product of
on-hand quantity Q read in the channel-warehouse-scoped context, `quantity`
is Q and `value` is `in_stock` iff Q > 0, else `out_of_stock`. -/
theorem get_availability_bucket_spec (l : Listing) (w : World) :
    ((get_availability l w).1.type = AvailType.bucket) ∧
    (l.product = none →
      (get_availability l w).1.value = none ∧
      (get_availability l w).1.quantity = none) ∧
    (∀ pid : Nat, l.product = some pid →
      ((get_availability l w).1.quantity =
        some ((w.products pid).quantityIn [l.channel.warehouse])) ∧
      (((w.products pid).quantityIn [l.channel.warehouse] > 0 →
        (get_availability l w).1.value = some AvailValue.in_stock) ∧
       (¬ (w.products pid).quantityIn [l.channel.warehouse] > 0 →
        (get_availability l w).1.value = some AvailValue.out_of_stock))) := by
  refine ⟨?_, ?_, ?_⟩
  · cases hp : l.product <;>
      simp [get_availability, withContext, get_availability_context, hp]
  · intro hp
    simp [get_availability, withContext, get_availability_context, hp]
  · intro pid hp
    refine ⟨?_, ?_, ?_⟩
    · simp [get_availability, withContext, get_availability_context, hp]
    · intro hq
      simp [get_availability, withContext, get_availability_context, hp, hq]
    · intro hq
      simp [get_availability, withContext, get_availability_context, hp, hq]

/-- Witness for C1 at a concrete listing and world. -/
theorem get_availability_bucket_spec_witness :
    (({ id := 1,
        channel := { id := 7, source := "shop", warehouse := 3 },
        product := some 10, product_identifier := "SKU", state := ListingState.active } :
        Listing).product = some 10) ∧
    ((get_availability
        { id := 1,
          channel := { id := 7, source := "shop", warehouse := 3 },
          product := some 10, product_identifier := "SKU", state := ListingState.active }
        { context := [], products := fun _ =>
            { is_fresh_import := false, code := "P", quantityIn := fun _ => 5 } }).1.value =
      some AvailValue.in_stock) := by
  refine ⟨rfl, ?_⟩
  have h := get_availability_bucket_spec
    { id := 1,
      channel := { id := 7, source := "shop", warehouse := 3 },
      product := some 10, product_identifier := "SKU", state := ListingState.active }
    { context := [], products := fun _ =>
        { is_fresh_import := false, code := "P", quantityIn := fun _ => 5 } }
  exact ((h.2.2 10 rfl).2.1 (by norm_num))

/-- C8: `get_availability` is read-only: the world (transaction context,
listing fields held in the listing value, and the product table) is returned
unchanged. -/
theorem get_availability_read_only (l : Listing) (w : World) :
    (get_availability l w).2 = w := by
  cases hp : l.product <;>
    simp [get_availability, withContext, get_availability_context, hp]

/-- C3: with no registered override, `export_inventory` on a listing, and
`create_from` at the product level and at the listing level, fail with an
error whose message names the channel's source. -/
theorem not_supported_dispatchers_name_source :
    (∀ l : Listing,
      ∃ a b, export_inventory l = Except.error (a ++ l.channel.source ++ b)) ∧
    (∀ (α : Type) (channel : Channel) (product_data : α),
      ∃ a b, Product.create_from channel product_data =
        Except.error (a ++ channel.source ++ b)) ∧
    (∀ (α : Type) (channel : Channel) (product_data : α),
      ∃ a b, ProductSaleChannelListing.create_from channel product_data =
        Except.error (a ++ channel.source ++ b)) := by
  refine ⟨fun l => ⟨"Export inventory is not implemented for ", " channels", rfl⟩,
    fun α c d => ⟨"create_from is not implemented in product for ", " channels", rfl⟩,
    fun α c d =>
      ⟨"create_from is not implemented in channel listing for ", " channels", rfl⟩⟩

/-- C6: the wizard's next-state transition returns exactly the string
`start_` concatenated with the selected channel's source (so source
`manual` yields `start_manual`), and a name not among the registered states
resolves to no state; in particular this module registers no
`start_manual` state. -/
theorem transition_next_spec (wiz : AddProductListing) :
    (AddProductListing.transition_next wiz = "start_" ++ wiz.start.channel.source) ∧
    (wiz.start.channel.source = "manual" →
      AddProductListing.transition_next wiz = "start_manual") ∧
    (∀ registered : List String,
      AddProductListing.transition_next wiz ∉ registered →
      resolve_state registered (AddProductListing.transition_next wiz) = none) ∧
    ("start_manual" ∉ AddProductListing.state_names ∧
      resolve_state AddProductListing.state_names "start_manual" = none) := by
  refine ⟨rfl, ?_, ?_, ?_, ?_⟩
  · intro h
    simp [AddProductListing.transition_next, h]
  · intro registered h
    simp [resolve_state, h]
  · decide
  · decide

/-- Witness for C6 at a concrete wizard whose selected channel has source
`manual`. -/
theorem transition_next_spec_witness :
    (AddProductListing.transition_next
        { start := { product := some 1,
                     channel := { id := 1, source := "manual", warehouse := 1 } } } =
      "start_manual") ∧
    (resolve_state AddProductListing.state_names
        (AddProductListing.transition_next
          { start := { product := some 1,
                       channel := { id := 1, source := "manual", warehouse := 1 } } }) =
      none) := by
  have h := transition_next_spec
    { start := { product := some 1,
                 channel := { id := 1, source := "manual", warehouse := 1 } } }
  exact ⟨h.2.1 rfl, h.2.2.1 AddProductListing.state_names (by decide)⟩

/-- C7: a product reference is required exactly when the listing state is
`active`; an active listing without a product fails the required-field
check, while a disabled listing passes it with no product. -/
theorem product_required_iff_active (l : Listing) :
    (product_required l = true ↔ l.state = ListingState.active) ∧
    (l.state = ListingState.active →
      (product_reference_ok l = true ↔ l.product ≠ none)) ∧
    (l.state = ListingState.disabled → product_reference_ok l = true) := by
  refine ⟨?_, ?_, ?_⟩
  · simp [product_required]
  · intro hs
    cases hp : l.product <;>
      simp [product_reference_ok, product_required, hs, hp]
  · intro hs
    simp [product_reference_ok, product_required, hs]

/-- Witness for C7: a disabled listing with no product passes validation,
and an active listing with no product fails it. -/
theorem product_required_iff_active_witness :
    (product_reference_ok
        { id := 1, channel := { id := 1, source := "shop", warehouse := 1 },
          product := none, product_identifier := "D",
          state := ListingState.disabled } = true) ∧
    (product_reference_ok
        { id := 2, channel := { id := 1, source := "shop", warehouse := 1 },
          product := none, product_identifier := "A",
          state := ListingState.active } ≠ true) := by
  constructor
  · exact (product_required_iff_active
      { id := 1, channel := { id := 1, source := "shop", warehouse := 1 },
        product := none, product_identifier := "D",
        state := ListingState.disabled }).2.2 rfl
  · intro h
    have := ((product_required_iff_active
      { id := 2, channel := { id := 1, source := "shop", warehouse := 1 },
        product := none, product_identifier := "A",
        state := ListingState.active }).2.1 rfl).mp h
    exact this rfl

/-- C10: `add_source` is idempotent — adding the same source twice leaves
the domain leaf as adding it once — and in any leaf reachable from the empty
initial domain leaf by `add_source` calls each source occurs at most once. -/
theorem add_source_idempotent :
    (∀ (leaf : List String) (s : String),
      add_source (add_source leaf s) s = add_source leaf s) ∧
    (∀ (calls : List String) (s : String),
      (calls.foldl add_source []).count s ≤ 1) := by
  have hmem : ∀ (leaf : List String) (s : String), s ∈ add_source leaf s := by
    intro leaf s
    by_cases h : s ∈ leaf <;> simp [add_source, h]
  have hnodup : ∀ (leaf : List String) (s : String),
      leaf.Nodup → (add_source leaf s).Nodup := by
    intro leaf s h
    by_cases hs : s ∈ leaf <;> simp [add_source, hs, List.nodup_append, h]
  constructor
  · intro leaf s
    have h := hmem leaf s
    simp only [add_source] at h ⊢
    simp [h]
  · intro calls s
    have hall : ∀ (leaf : List String), leaf.Nodup → (calls.foldl add_source leaf).Nodup := by
      induction calls with
      | nil => intro leaf h; simpa using h
      | cons c cs ih =>
          intro leaf h
          exact ih (add_source leaf c) (hnodup leaf c h)
    exact List.nodup_iff_count_le_one.mp (hall [] (by simp)) s

/-- Helper: when a bulk export run succeeds, its instrumented run records
exactly the processed listings after any prior trace. -/
theorem export_bulk_ok_trace {σ ε : Type} (exp : Listing → σ → σ × Option ε)
    (ls : List Listing) :
    ∀ (s s' : σ) (tr : List Listing),
      export_bulk_inventory exp ls s = (s', none) →
      export_bulk_inventory (traceExp exp) ls (s, tr) = ((s', tr ++ ls), none) := by
  induction ls with
  | nil =>
      intro s s' tr h
      simp [export_bulk_inventory] at h
      simp [export_bulk_inventory, h]
  | cons l ls ih =>
      intro s s' tr h
      rcases hx : exp l s with ⟨s1, e⟩
      cases e with
      | none =>
          rw [export_bulk_inventory, hx] at h
          have := ih s1 s' (tr ++ [l]) h
          simp only [export_bulk_inventory, traceExp, hx]
          simpa using this
      | some e' =>
          rw [export_bulk_inventory, hx] at h
          simp at h

/-- Helper: when a prefix of listings succeeds and the next one fails, the
bulk export returns that failure and the state reached, independently of
the listings that follow. -/
theorem export_bulk_fail_append {σ ε : Type} (exp : Listing → σ → σ × Option ε)
    (l1 : List Listing) :
    ∀ (l2 : List Listing) (x : Listing) (s s1 s2 : σ) (e : ε),
      export_bulk_inventory exp l1 s = (s1, none) →
      exp x s1 = (s2, some e) →
      export_bulk_inventory exp (l1 ++ x :: l2) s = (s2, some e) := by
  induction l1 with
  | nil =>
      intro l2 x s s1 s2 e h hx
      simp [export_bulk_inventory] at h
      subst h
      simp [export_bulk_inventory, hx]
  | cons l l1 ih =>
      intro l2 x s s1 s2 e h hx
      rcases hl : exp l s with ⟨t, e'⟩
      cases e' with
      | none =>
          rw [export_bulk_inventory, hl] at h
          rw [List.cons_append, export_bulk_inventory, hl]
          exact ih l2 x t s1 s2 e h hx
      | some e'' =>
          rw [export_bulk_inventory, hl] at h
          simp at h

/-- C4: the default bulk export invokes the single-item export exactly once
per listing in input order (an all-successful run's trace is the input
list); when the single-item export fails on the listing following a
successful prefix, that failure and the state reached propagate regardless
of the remaining listings, which are never invoked (the failing run's trace
stops at the failing listing), and the prior state changes are kept. -/
theorem export_bulk_inventory_default_policy :
    (∀ (σ ε : Type) (exp : Listing → σ → σ × Option ε) (ls : List Listing)
      (s s' : σ),
      export_bulk_inventory exp ls s = (s', none) →
      export_bulk_inventory (traceExp exp) ls (s, []) = ((s', ls), none)) ∧
    (∀ (σ ε : Type) (exp : Listing → σ → σ × Option ε)
      (l1 l2 : List Listing) (x : Listing) (s s1 s2 : σ) (e : ε),
      export_bulk_inventory exp l1 s = (s1, none) →
      exp x s1 = (s2, some e) →
      export_bulk_inventory exp (l1 ++ x :: l2) s = (s2, some e) ∧
      export_bulk_inventory (traceExp exp) (l1 ++ x :: l2) (s, []) =
        ((s2, l1 ++ [x]), some e)) := by
  constructor
  · intro σ ε exp ls s s' h
    simpa using export_bulk_ok_trace exp ls s s' [] h
  · intro σ ε exp l1 l2 x s s1 s2 e h hx
    refine ⟨export_bulk_fail_append exp l1 l2 x s s1 s2 e h hx, ?_⟩
    have h1 : export_bulk_inventory (traceExp exp) l1 (s, []) = ((s1, l1), none) := by
      simpa using export_bulk_ok_trace exp l1 s s1 [] h
    have hx' : traceExp exp x (s1, l1) = ((s2, l1 ++ [x]), some e) := by
      simp [traceExp, hx]
    exact export_bulk_fail_append (traceExp exp) l1 l2 x (s, []) (s1, l1)
      (s2, l1 ++ [x]) e h1 hx'

/-- Witness for C4 at a concrete export that counts invocations and fails
on the second listing of three: the failure propagates, the third listing
is never invoked, and the first invocation's state change is kept. -/
theorem export_bulk_inventory_default_policy_witness :
    export_bulk_inventory wexp ([wlA] ++ wlB :: [wlC]) 0 = (2, some "boom") ∧
    export_bulk_inventory (traceExp wexp) ([wlA] ++ wlB :: [wlC]) (0, []) =
      (((2 : Nat), [wlA] ++ [wlB]), some "boom") := by
  exact export_bulk_inventory_default_policy.2 Nat String wexp [wlA] [wlC] wlB
    0 1 2 "boom" (by decide) (by decide)

/-- Helper: once the injected reset is in the values dict, the fresh-import
scan keeps it there. -/
theorem write_fresh_scan_keeps_false (db : Nat → ProductRec) :
    ∀ (products : List Nat) (v : WriteValues), v.is_fresh_import = some false →
      (write_fresh_scan db products v).is_fresh_import = some false := by
  intro products
  induction products with
  | nil => intro v h; simpa [write_fresh_scan] using h
  | cons p ps ih =>
      intro v h
      rw [write_fresh_scan, List.foldl_cons]
      by_cases hp : (db p).is_fresh_import
      · simp only [hp, if_true]
        exact ih { v with is_fresh_import := some false } rfl
      · simp only [hp, if_false, Bool.false_eq_true]
        exact ih v h

/-- Helper: if some listed product is a fresh import, the scan leaves the
values dict with `is_fresh_import = False`. -/
theorem write_fresh_scan_sets_false (db : Nat → ProductRec) :
    ∀ (products : List Nat) (v : WriteValues) (pid : Nat), pid ∈ products →
      (db pid).is_fresh_import = true →
      (write_fresh_scan db products v).is_fresh_import = some false := by
  intro products
  induction products with
  | nil => intro v pid h _; simp at h
  | cons p ps ih =>
      intro v pid hmem hfresh
      rw [write_fresh_scan, List.foldl_cons]
      rcases List.mem_cons.mp hmem with rfl | hmem'
      · simp only [hfresh, if_true]
        exact write_fresh_scan_keeps_false db ps _ rfl
      · by_cases hp : (db p).is_fresh_import
        · simp only [hp, if_true]
          exact ih { v with is_fresh_import := some false } pid hmem' hfresh
        · simp only [hp, if_false, Bool.false_eq_true]
          exact ih v pid hmem' hfresh

/-- C9: a call to Product.write over a list of products in which at least
one product is a fresh import leaves every product of the list with
`is_fresh_import = False` afterwards — the reset is injected into the shared
values applied to the whole list. -/
theorem write_resets_fresh_import (db : Nat → ProductRec) (products : List Nat)
    (values : WriteValues)
    (h : ∃ pid ∈ products, (db pid).is_fresh_import = true) :
    ∀ pid ∈ products,
      ((Product.write db products values []) pid).is_fresh_import = false := by
  intro pid hpid
  obtain ⟨p0, hp0, hf0⟩ := h
  have hv : (write_fresh_scan db products values).is_fresh_import = some false :=
    write_fresh_scan_sets_false db products values p0 hp0 hf0
  rw [Product.write, super_write, List.foldl_cons, List.foldl_nil]
  simp [hpid, apply_values, hv]

/-- Witness for C9: with products 1 and 2 listed, product 1 a fresh import
and product 2 not, the write resets the flag on product 2 as well. -/
theorem write_resets_fresh_import_witness :
    ((Product.write
        (fun pid => { is_fresh_import := pid == 1, code := "", quantityIn := fun _ => 0 })
        [1, 2] { is_fresh_import := none, code := none } []) 2).is_fresh_import =
      false := by
  exact write_resets_fresh_import
    (fun pid => { is_fresh_import := pid == 1, code := "", quantityIn := fun _ => 0 })
    [1, 2] { is_fresh_import := none, code := none }
    ⟨1, by decide, rfl⟩ 2 (by decide)

/-- Helper: behaviour of a modelled UNIQUE-constrained insert: a colliding
insert fails with the constraint message, a fresh insert appends the row,
and a successful insert preserves distinctness of the stored key tuples. -/
theorem insertUnique_spec {ρ κ : Type} [DecidableEq κ] (key : ρ → κ)
    (msg : String) (t : List ρ) (r : ρ) :
    ((∃ r' ∈ t, key r' = key r) → insertUnique key msg t r = Except.error msg) ∧
    ((∀ r' ∈ t, key r' ≠ key r) →
      insertUnique key msg t r = Except.ok (t ++ [r])) ∧
    ((t.map key).Nodup → ∀ t', insertUnique key msg t r = Except.ok t' →
      (t'.map key).Nodup) := by
  refine ⟨?_, ?_, ?_⟩
  · rintro ⟨r', hr', hk⟩
    have hc : t.any (fun r'' => decide (key r'' = key r)) = true := by
      rw [List.any_eq_true]
      exact ⟨r', hr', by simpa using hk⟩
    simp [insertUnique, hc]
  · intro hfresh
    have hc : t.any (fun r'' => decide (key r'' = key r)) = false := by
      rw [List.any_eq_false]
      intro r' hr'
      simpa using hfresh r' hr'
    simp [insertUnique, hc]
  · intro hnd t' hok
    by_cases hc : t.any (fun r'' => decide (key r'' = key r)) = true
    · simp [insertUnique, hc] at hok
    · have hfresh : ∀ r' ∈ t, ¬ key r' = key r := by
        rw [Bool.not_eq_true, List.any_eq_false] at hc
        intro r' hr'
        simpa using hc r' hr'
      have hok' : t ++ [r] = t' := by
        simpa [insertUnique, hc] using hok
      subst hok'
      rw [List.map_append, List.nodup_append]
      refine ⟨hnd, by simp, ?_⟩
      intro a ha hb
      obtain ⟨r', hr', hk⟩ := List.mem_map.mp ha
      have hb' : a = key r := by simpa using hb
      exact hfresh r' hr' (hk.trans hb')

/-- C5: at most one stored row per (channel, identifier, entity) key for
party and template listings — and per (channel, identifier) for
product-variant listings: a duplicate insert fails with the declared
constraint message leaving the stored rows unchanged, an insert with a
fresh key appends the row, and successful inserts preserve distinctness of
the stored keys. -/
theorem listing_unique_constraints :
    (∀ (t : List Listing) (r : Listing),
      ((∃ r' ∈ t, product_listing_key r' = product_listing_key r) →
        insertUnique product_listing_key
          "This external product is already mapped with same channel." t r =
        Except.error "This external product is already mapped with same channel.") ∧
      ((∀ r' ∈ t, product_listing_key r' ≠ product_listing_key r) →
        insertUnique product_listing_key
          "This external product is already mapped with same channel." t r =
        Except.ok (t ++ [r])) ∧
      ((t.map product_listing_key).Nodup → ∀ t',
        insertUnique product_listing_key
          "This external product is already mapped with same channel." t r =
          Except.ok t' →
        (t'.map product_listing_key).Nodup)) ∧
    (∀ (t : List TemplateListingRow) (r : TemplateListingRow),
      ((∃ r' ∈ t, template_listing_key r' = template_listing_key r) →
        insertUnique template_listing_key
          "Product Template is already mapped to this channel with same identifier" t r =
        Except.error
          "Product Template is already mapped to this channel with same identifier") ∧
      ((∀ r' ∈ t, template_listing_key r' ≠ template_listing_key r) →
        insertUnique template_listing_key
          "Product Template is already mapped to this channel with same identifier" t r =
        Except.ok (t ++ [r])) ∧
      ((t.map template_listing_key).Nodup → ∀ t',
        insertUnique template_listing_key
          "Product Template is already mapped to this channel with same identifier" t r =
          Except.ok t' →
        (t'.map template_listing_key).Nodup)) ∧
    (∀ (t : List PartyListingRow) (r : PartyListingRow),
      ((∃ r' ∈ t, party_listing_key r' = party_listing_key r) →
        insertUnique party_listing_key
          "Contact is already mapped to this channel with same identifier" t r =
        Except.error
          "Contact is already mapped to this channel with same identifier") ∧
      ((∀ r' ∈ t, party_listing_key r' ≠ party_listing_key r) →
        insertUnique party_listing_key
          "Contact is already mapped to this channel with same identifier" t r =
        Except.ok (t ++ [r])) ∧
      ((t.map party_listing_key).Nodup → ∀ t',
        insertUnique party_listing_key
          "Contact is already mapped to this channel with same identifier" t r =
          Except.ok t' →
        (t'.map party_listing_key).Nodup)) := by
  exact ⟨fun t r => insertUnique_spec product_listing_key _ t r,
    fun t r => insertUnique_spec template_listing_key _ t r,
    fun t r => insertUnique_spec party_listing_key _ t r⟩

/-- Witness for C5: inserting a product listing that repeats the
(channel, identifier) key of a stored one fails with the constraint
message, even though the linked product differs. -/
theorem listing_unique_constraints_witness :
    insertUnique product_listing_key
      "This external product is already mapped with same channel."
      [{ id := 1, channel := exChan, product := some 10,
         product_identifier := "A", state := ListingState.active }]
      { id := 2, channel := exChan, product := some 11,
        product_identifier := "A", state := ListingState.active } =
    Except.error "This external product is already mapped with same channel." := by
  exact (listing_unique_constraints.1
    [{ id := 1, channel := exChan, product := some 10,
       product_identifier := "A", state := ListingState.active }]
    { id := 2, channel := exChan, product := some 11,
      product_identifier := "A", state := ListingState.active }).1
    ⟨{ id := 1, channel := exChan, product := some 10,
       product_identifier := "A", state := ListingState.active },
     by decide, by decide⟩

/-- Helper: lookup after appending a single binding. -/
theorem lookupk_append_single {α β : Type} [DecidableEq α]
    (m : List (α × β)) (n k : α) (d : β) :
    lookupk (m ++ [(n, d)]) k =
      (match lookupk m k with
       | some v => some v
       | none => if n = k then some d else none) := by
  induction m with
  | nil => simp [lookupk]
  | cons p rest ih =>
      rcases p with ⟨k', v⟩
      by_cases h : k' = k <;> simp [lookupk, h, ih]

/-- Helper: after the defaultdict touches key `n`, `n` is bound to its old
value or, when it was absent, to the default. -/
theorem touch_lookup_self (d : Inner) (m : Outer) (n : String) :
    lookupk (touch d m n) n = some ((lookupk m n).getD d) := by
  cases h : lookupk m n with
  | some v => simp [touch, h]
  | none => simp [touch, h, lookupk_append_single]

/-- Helper: touching key `n` leaves every other key's binding unchanged. -/
theorem touch_lookup_ne (d : Inner) (m : Outer) (n k : String) (hk : k ≠ n) :
    lookupk (touch d m n) k = lookupk m k := by
  cases h : lookupk m n with
  | some v => simp [touch, h]
  | none =>
      simp only [touch, h]
      rw [lookupk_append_single]
      have hnk : ¬ n = k := fun hnk => hk hnk.symm
      cases hmk : lookupk m k
      · simp [hnk]
      · simp

/-- Helper: lookup in an outer dict whose binding at key `n` was rewritten
in place. -/
theorem lookupk_updIn (m : Outer) (n k : String) (f : Inner → Inner) :
    lookupk (updIn m n f) k =
      (lookupk m k).map (fun inner => if k = n then f inner else inner) := by
  induction m with
  | nil => simp [updIn, lookupk]
  | cons p rest ih =>
      rcases p with ⟨k', v⟩
      by_cases hn : k' = n
      · subst hn
        by_cases hk' : k' = k
        · subst hk'
          simp [updIn, lookupk]
        · simp [updIn, lookupk, hk', ih]
      · by_cases hk' : k' = k
        · subst hk'
          simp [updIn, lookupk, hn]
        · simp [updIn, lookupk, hn, hk', ih]

/-- Helper: a dict assignment binds the assigned key to the value. -/
theorem setk_lookup_self {α β : Type} [DecidableEq α] (inner : List (α × β))
    (i : α) (v : β) : lookupk (setk inner i v) i = some v := by
  induction inner with
  | nil => simp [setk, lookupk]
  | cons p rest ih =>
      rcases p with ⟨k', v'⟩
      by_cases h : k' = i <;> simp [setk, lookupk, h, ih]

/-- Helper: a dict assignment leaves every other key's binding unchanged. -/
theorem setk_lookup_ne {α β : Type} [DecidableEq α] (inner : List (α × β))
    (i j : α) (v : β) (h : j ≠ i) :
    lookupk (setk inner i v) j = lookupk inner j := by
  induction inner with
  | nil => simp [setk, lookupk, Ne.symm h]
  | cons p rest ih =>
      rcases p with ⟨k', v'⟩
      by_cases hk' : k' = i
      · subst hk'
        simp [setk, lookupk, Ne.symm h, h]
      · by_cases hj : k' = j <;> simp [setk, lookupk, hk', hj, h, ih]

/-- Helper: `values[n][i] = v` binds `i` to `v` inside the binding of `n`,
starting from the old inner dict or the default. -/
theorem setOut_lookup_self (d : Inner) (m : Outer) (n : String) (i : Nat)
    (v : Option FieldVal) :
    lookupk (setOut d m n i v) n = some (setk ((lookupk m n).getD d) i v) := by
  rw [setOut, lookupk_updIn, touch_lookup_self]
  simp

/-- Helper: `values[n][i] = v` leaves every other outer key's binding
unchanged. -/
theorem setOut_lookup_ne (d : Inner) (m : Outer) (n k : String) (i : Nat)
    (v : Option FieldVal) (hk : k ≠ n) :
    lookupk (setOut d m n i v) k = lookupk m k := by
  rw [setOut, lookupk_updIn, touch_lookup_ne d m n k hk]
  cases lookupk m k <;> simp [hk]

/-- Helper: the default inner dict binds every batched listing id to the
stored null. -/
theorem lookupk_defaults (ids : List Nat) (j : Nat) (h : j ∈ ids) :
    lookupk (availability_defaults ids) j = some none := by
  induction ids with
  | nil => simp at h
  | cons i rest ih =>
      rcases List.mem_cons.mp h with rfl | h'
      · simp [availability_defaults, lookupk]
      · by_cases hi : i = j
        · simp [availability_defaults, lookupk, hi]
        · have hr := ih h'
          simp only [availability_defaults] at hr ⊢
          simp [lookupk, hi, hr]

/-- Helper: writing a value at the id of a listing that has a product keeps
the inner-dict invariant, provided listing ids are injective on the batch. -/
theorem InnerInv_setk (listings : List Listing)
    (hinj : ∀ a ∈ listings, ∀ b ∈ listings, a.id = b.id → a = b)
    (inner : Inner) (hI : InnerInv listings inner)
    (lp : Listing) (hlp : lp ∈ listings) (hp : lp.product ≠ none)
    (v : Option FieldVal) : InnerInv listings (setk inner lp.id v) := by
  intro l hl
  by_cases hid : l.id = lp.id
  · have hel : l = lp := hinj l hl lp hlp hid
    refine ⟨v, ?_, ?_⟩
    · rw [hid]
      exact setk_lookup_self inner lp.id v
    · intro hnone
      exact absurd (hel ▸ hnone) hp
  · obtain ⟨v', hv', hcond⟩ := hI l hl
    exact ⟨v', by rw [setk_lookup_ne inner lp.id l.id v hid]; exact hv', hcond⟩

/-- Helper: `values[n][lp.id] = v` for a listing `lp` that has a product
keeps the outer-dict invariant. -/
theorem OuterInv_setOut (listings : List Listing)
    (hinj : ∀ a ∈ listings, ∀ b ∈ listings, a.id = b.id → a = b)
    (d : Inner) (hd : InnerInv listings d)
    (m : Outer) (hM : OuterInv listings m)
    (n : String) (lp : Listing) (hlp : lp ∈ listings) (hp : lp.product ≠ none)
    (v : Option FieldVal) : OuterInv listings (setOut d m n lp.id v) := by
  intro k inner hk
  by_cases hkn : k = n
  · subst hkn
    rw [setOut_lookup_self] at hk
    have hbase : InnerInv listings ((lookupk m k).getD d) := by
      cases hmk : lookupk m k with
      | none => simpa using hd
      | some inner0 => simpa using hM k inner0 hmk
    have : inner = setk ((lookupk m k).getD d) lp.id v := (Option.some.inj hk).symm
    rw [this]
    exact InnerInv_setk listings hinj _ hbase lp hlp hp v
  · rw [setOut_lookup_ne d m n k lp.id v hkn] at hk
    exact hM k inner hk

/-- Helper: `values[n][i] = v` keeps every already-bound outer key bound. -/
theorem setOut_lookup_isSome (d : Inner) (m : Outer) (n : String) (i : Nat)
    (v : Option FieldVal) (k : String)
    (h : ∃ x, lookupk m k = some x) :
    ∃ y, lookupk (setOut d m n i v) k = some y := by
  by_cases hkn : k = n
  · subst hkn
    exact ⟨_, setOut_lookup_self d m k i v⟩
  · obtain ⟨x, hx⟩ := h
    exact ⟨x, by rw [setOut_lookup_ne d m n k i v hkn]; exact hx⟩

/-- Helper: one iteration of the fill loop keeps the outer-dict invariant. -/
theorem OuterInv_step (listings : List Listing)
    (hinj : ∀ a ∈ listings, ∀ b ∈ listings, a.id = b.id → a = b)
    (w : World) (d : Inner) (hd : InnerInv listings d)
    (m : Outer) (hM : OuterInv listings m)
    (l : Listing) (hl : l ∈ listings) :
    OuterInv listings (availability_step w d m l) := by
  cases hp : l.product with
  | none => simpa [availability_step, hp] using hM
  | some pid =>
      have hp' : l.product ≠ none := by simp [hp]
      simp only [availability_step, hp]
      exact OuterInv_setOut listings hinj d hd _
        (OuterInv_setOut listings hinj d hd _
          (OuterInv_setOut listings hinj d hd m hM
            "availability_type_used" l hl hp' _)
          "availability_used" l hl hp' _)
        "quantity" l hl hp' _

/-- Helper: one iteration of the fill loop keeps every bound outer key
bound. -/
theorem step_lookup_isSome (w : World) (d : Inner) (m : Outer) (l : Listing)
    (k : String) (h : ∃ x, lookupk m k = some x) :
    ∃ y, lookupk (availability_step w d m l) k = some y := by
  cases hp : l.product with
  | none => simpa [availability_step, hp] using h
  | some pid =>
      simp only [availability_step, hp]
      exact setOut_lookup_isSome d _ _ _ _ k
        (setOut_lookup_isSome d _ _ _ _ k
          (setOut_lookup_isSome d m _ _ _ k h))

/-- Helper: the fill loop keeps the outer-dict invariant. -/
theorem OuterInv_foldl (listings : List Listing)
    (hinj : ∀ a ∈ listings, ∀ b ∈ listings, a.id = b.id → a = b)
    (w : World) (d : Inner) (hd : InnerInv listings d) :
    ∀ (ls : List Listing), (∀ x ∈ ls, x ∈ listings) →
      ∀ (m : Outer), OuterInv listings m →
        OuterInv listings (ls.foldl (availability_step w d) m) := by
  intro ls
  induction ls with
  | nil => intro _ m hM; simpa using hM
  | cons l ls ih =>
      intro hsub m hM
      rw [List.foldl_cons]
      exact ih (fun x hx => hsub x (List.mem_cons_of_mem l hx))
        (availability_step w d m l)
        (OuterInv_step listings hinj w d hd m hM l (hsub l (List.mem_cons_self l ls)))

/-- Helper: the fill loop keeps every bound outer key bound. -/
theorem foldl_step_lookup_isSome (w : World) (d : Inner) :
    ∀ (ls : List Listing) (m : Outer) (k : String),
      (∃ x, lookupk m k = some x) →
      ∃ y, lookupk (ls.foldl (availability_step w d) m) k = some y := by
  intro ls
  induction ls with
  | nil => intro m k h; simpa using h
  | cons l ls ih =>
      intro m k h
      rw [List.foldl_cons]
      exact ih (availability_step w d m l) k (step_lookup_isSome w d m l k h)

/-- Helper: touching names keeps every binding either absent or the
default. -/
theorem foldl_touch_inv (d : Inner) :
    ∀ (names : List String) (m : Outer) (k : String),
      (lookupk m k = none ∨ lookupk m k = some d) →
      (lookupk (names.foldl (fun m n => touch d m n) m) k = none ∨
       lookupk (names.foldl (fun m n => touch d m n) m) k = some d) := by
  intro names
  induction names with
  | nil => intro m k h; simpa using h
  | cons n names ih =>
      intro m k h
      rw [List.foldl_cons]
      apply ih
      by_cases hkn : k = n
      · subst hkn
        rw [touch_lookup_self]
        rcases h with h | h <;> simp [h]
      · rw [touch_lookup_ne d m n k hkn]
        exact h

/-- Helper: touching names keeps every existing binding. -/
theorem foldl_touch_keeps (d : Inner) :
    ∀ (names : List String) (m : Outer) (k : String) (x : Inner),
      lookupk m k = some x →
      lookupk (names.foldl (fun m n => touch d m n) m) k = some x := by
  intro names
  induction names with
  | nil => intro m k x h; simpa using h
  | cons n names ih =>
      intro m k x h
      rw [List.foldl_cons]
      apply ih
      by_cases hkn : k = n
      · subst hkn
        rw [touch_lookup_self, h]
        rfl
      · rw [touch_lookup_ne d m n k hkn]
        exact h

/-- Helper: after the touch loop, every requested name is bound to the
default (when it was absent or already at the default before). -/
theorem foldl_touch_mem (d : Inner) :
    ∀ (names : List String) (m : Outer) (n : String), n ∈ names →
      (lookupk m n = none ∨ lookupk m n = some d) →
      lookupk (names.foldl (fun m n => touch d m n) m) n = some d := by
  intro names
  induction names with
  | nil => intro m n h; simp at h
  | cons n' names ih =>
      intro m n hmem h
      rw [List.foldl_cons]
      rcases List.mem_cons.mp hmem with rfl | hmem'
      · apply foldl_touch_keeps
        rw [touch_lookup_self]
        rcases h with h | h <;> simp [h]
      · apply ih (touch d m n') n hmem'
        by_cases hnn : n = n'
        · subst hnn
          rw [touch_lookup_self]
          rcases h with h | h <;> simp [h]
        · rw [touch_lookup_ne d m n' n hnn]
          exact h

/-- C2 (amended): for listings with pairwise-distinct ids, every requested
name is bound in the result of `get_availability_fields` to an inner dict
that binds every listing of the batch, with the null default for a listing
without a product; on the spec's example the result holds the two requested
fields as stated and additionally `availability_type_used`, which the fill
loop always populates for listings that have a product. -/
theorem get_availability_fields_amended :
    (∀ (w : World) (listings : List Listing) (names : List String),
      (listings.map Listing.id).Nodup →
      ∀ n ∈ names, ∃ inner,
        lookupk (get_availability_fields listings names w) n = some inner ∧
        ∀ l ∈ listings, ∃ v, lookupk inner l.id = some v ∧
          (l.product = none → v = none)) ∧
    (get_availability_fields [exL1, exL2] ["quantity", "availability_used"] exW =
      [("quantity", [(1, some (FieldVal.q 5)), (2, none)]),
       ("availability_used",
         [(1, some (FieldVal.avail AvailValue.in_stock)), (2, none)]),
       ("availability_type_used",
         [(1, some (FieldVal.atype AvailType.bucket)), (2, none)])]) := by
  constructor
  · intro w listings names hnd n hn
    have hinj : ∀ a ∈ listings, ∀ b ∈ listings, a.id = b.id → a = b :=
      List.inj_on_of_nodup_map hnd
    have hd : InnerInv listings (availability_defaults (listings.map Listing.id)) := by
      intro l hl
      exact ⟨none, lookupk_defaults _ _ (List.mem_map_of_mem Listing.id hl),
        fun _ => rfl⟩
    have hm0inv : OuterInv listings
        (names.foldl
          (fun m n => touch (availability_defaults (listings.map Listing.id)) m n)
          []) := by
      intro k inner hk
      rcases foldl_touch_inv (availability_defaults (listings.map Listing.id))
          names [] k (Or.inl rfl) with h | h
      · rw [hk] at h
        cases h
      · rw [hk] at h
        rw [Option.some.inj h]
        exact hd
    have hmem : lookupk
        (names.foldl
          (fun m n => touch (availability_defaults (listings.map Listing.id)) m n)
          []) n =
        some (availability_defaults (listings.map Listing.id)) :=
      foldl_touch_mem _ names [] n hn (Or.inl rfl)
    obtain ⟨inner, hinner⟩ := foldl_step_lookup_isSome w
      (availability_defaults (listings.map Listing.id)) listings _ n ⟨_, hmem⟩
    exact ⟨inner, hinner,
      OuterInv_foldl listings hinj w _ hd listings (fun x hx => hx) _ hm0inv
        n inner hinner⟩
  · decide

/-- Counterexample for C2's example as literally stated: the result of the
batch call is not the two-field dict of the claim, because the fill loop
also populates `availability_type_used` for the listing that has a
product. -/
theorem get_availability_fields_example_ne :
    (lookupk
        (get_availability_fields [exL1, exL2] ["quantity", "availability_used"] exW)
        "availability_type_used" =
      some [(1, some (FieldVal.atype AvailType.bucket)), (2, none)]) ∧
    (get_availability_fields [exL1, exL2] ["quantity", "availability_used"] exW ≠
      [("quantity", [(1, some (FieldVal.q 5)), (2, none)]),
       ("availability_used",
         [(1, some (FieldVal.avail AvailValue.in_stock)), (2, none)])]) := by
  constructor
  · decide
  · decide

/-- Witness for C2's universal part at the spec's example batch. -/
theorem get_availability_fields_amended_witness :
    ∃ inner,
      lookupk
        (get_availability_fields [exL1, exL2] ["quantity", "availability_used"] exW)
        "quantity" = some inner ∧
      ∀ l ∈ [exL1, exL2], ∃ v, lookupk inner l.id = some v ∧
        (l.product = none → v = none) := by
  exact get_availability_fields_amended.1 exW [exL1, exL2]
    ["quantity", "availability_used"] (by decide) "quantity" (by decide)

end SaleChannel
